import Mathlib

/-!
# Formal model of the tap-sailthru stream synchronization engine

Shallow embedding of `tap_sailthru/client.py`, `tap_sailthru/streams.py`
and `tap_sailthru/transform.py`.

Modelling conventions:
* Timestamps are natural numbers counting microseconds since the epoch;
  `singer.utils.strptime_to_utc` / `singer.utils.strftime` round-trips are
  modelled as the identity and `datetime.timedelta(microseconds=1)` as `+ 1`.
* Python dictionaries appearing as data are association lists; a JSON body
  that fails to decode is `Option.none`.
* Machine-word arithmetic in MD5 is `Nat` arithmetic reduced `% 2 ^ 32`.
-/

namespace TapSailthru

/-! ## Parameter flattening and request signing (`client.py`)

`SailthruClient.extract_params`, `get_signature_string`,
`get_signature_hash`. -/

/-- A Python value appearing in an API parameter structure: scalar leaves
(strings or integers), lists, and dictionaries with string keys — the
`Union[list, dict]`-plus-scalars shape consumed by
`SailthruClient.extract_params`. -/
inductive PyParam where
  | str (s : String)
  | int (n : Int)
  | list (xs : List PyParam)
  | dict (kvs : List (String × PyParam))

/-- Python `str()` of a scalar leaf value.  `extract_params` only ever
produces scalar leaves, so the composite cases are unreachable. -/
def pyStr : PyParam → String
  | .str s => s
  | .int n => toString n
  | .list _ => ""
  | .dict _ => ""

mutual
/-- Model of `SailthruClient.extract_params`: extracts the values of a set of
parameters, recursing into nested dictionaries (over their values, in
insertion order) and lists, collecting every scalar leaf. -/
def extract_params : PyParam → List PyParam
  | .str s => [.str s]
  | .int n => [.int n]
  | .list xs => extractParamsOfList xs
  | .dict kvs => extractParamsOfDict kvs

/-- Helper: `extract_params` mapped over the elements of a Python list. -/
def extractParamsOfList : List PyParam → List PyParam
  | [] => []
  | x :: xs => extract_params x ++ extractParamsOfList xs

/-- Helper: `extract_params` mapped over the values of a Python dictionary. -/
def extractParamsOfDict : List (String × PyParam) → List PyParam
  | [] => []
  | (_, v) :: kvs => extract_params v ++ extractParamsOfDict kvs
end

/-- Lexicographic comparison of character sequences by Unicode code
point, the order Python uses for `str` comparison. -/
def lexLe : List Char → List Char → Bool
  | [], _ => true
  | _ :: _, [] => false
  | a :: as, b :: bs =>
      if a < b then true else if b < a then false else lexLe as bs

/-- String comparison as Python performs it: lexicographic by code
point. -/
def strLeB (a b : String) : Bool := lexLe a.data b.data

/-- Python `list.sort()` on strings: lexicographic by Unicode code point.
The observable result — the sorted permutation of the input — is modelled
with insertion sort (equal strings are identical, so any correct sort
produces the same list as CPython's stable sort). -/
def pySort (l : List String) : List String :=
  l.insertionSort (fun a b => strLeB a b = true)

/-- Model of `SailthruClient.get_signature_string`, before the final UTF-8
`.encode`: the shared secret concatenated with the sorted string forms of
all extracted parameter values, with no separator. -/
def get_signature_string (params : PyParam) (secret : String) : String :=
  secret ++ String.join (pySort ((extract_params params).map pyStr))

/-! ## MD5 (`hashlib.md5`), RFC 1321, over byte lists -/

/-- Reduce to a 32-bit word. -/
def w32 (x : Nat) : Nat := x % 4294967296

/-- Rotate a 32-bit word left by `s` bits (`0 < s < 32`, `x < 2 ^ 32`). -/
def rotl32 (x s : Nat) : Nat := w32 (x * 2 ^ s) + x / 2 ^ (32 - s)

/-- Bitwise complement within 32 bits (argument below `2 ^ 32`). -/
def not32 (x : Nat) : Nat := 4294967295 - x

/-- The 64 MD5 round constants `K[i] = floor(abs(sin(i + 1)) * 2 ^ 32)`. -/
def md5K : Array Nat := #[
  0xd76aa478, 0xe8c7b756, 0x242070db, 0xc1bdceee,
  0xf57c0faf, 0x4787c62a, 0xa8304613, 0xfd469501,
  0x698098d8, 0x8b44f7af, 0xffff5bb1, 0x895cd7be,
  0x6b901122, 0xfd987193, 0xa679438e, 0x49b40821,
  0xf61e2562, 0xc040b340, 0x265e5a51, 0xe9b6c7aa,
  0xd62f105d, 0x02441453, 0xd8a1e681, 0xe7d3fbc8,
  0x21e1cde6, 0xc33707d6, 0xf4d50d87, 0x455a14ed,
  0xa9e3e905, 0xfcefa3f8, 0x676f02d9, 0x8d2a4c8a,
  0xfffa3942, 0x8771f681, 0x6d9d6122, 0xfde5380c,
  0xa4beea44, 0x4bdecfa9, 0xf6bb4b60, 0xbebfbc70,
  0x289b7ec6, 0xeaa127fa, 0xd4ef3085, 0x04881d05,
  0xd9d4d039, 0xe6db99e5, 0x1fa27cf8, 0xc4ac5665,
  0xf4292244, 0x432aff97, 0xab9423a7, 0xfc93a039,
  0x655b59c3, 0x8f0ccc92, 0xffeff47d, 0x85845dd1,
  0x6fa87e4f, 0xfe2ce6e0, 0xa3014314, 0x4e0811a1,
  0xf7537e82, 0xbd3af235, 0x2ad7d2bb, 0xeb86d391]

/-- Per-round left-rotation amounts. -/
def md5S (i : Nat) : Nat :=
  if i < 16 then #[7, 12, 17, 22].getD (i % 4) 0
  else if i < 32 then #[5, 9, 14, 20].getD (i % 4) 0
  else if i < 48 then #[4, 11, 16, 23].getD (i % 4) 0
  else #[6, 10, 15, 21].getD (i % 4) 0

/-- Message-word index used in round `i`. -/
def md5G (i : Nat) : Nat :=
  if i < 16 then i
  else if i < 32 then (5 * i + 1) % 16
  else if i < 48 then (3 * i + 5) % 16
  else (7 * i) % 16

/-- The nonlinear mixing function of round `i`. -/
def md5Mix (i b c d : Nat) : Nat :=
  if i < 16 then Nat.lor (Nat.land b c) (Nat.land (not32 b) d)
  else if i < 32 then Nat.lor (Nat.land d b) (Nat.land (not32 d) c)
  else if i < 48 then Nat.xor b (Nat.xor c d)
  else Nat.xor c (Nat.lor b (not32 d))

/-- One of the 64 MD5 rounds on state `(a, b, c, d)`. -/
def md5Round (m : Array Nat) (st : Nat × Nat × Nat × Nat) (i : Nat) :
    Nat × Nat × Nat × Nat :=
  let (a, b, c, d) := st
  let f := w32 (md5Mix i b c d + a + md5K.getD i 0 + m.getD (md5G i) 0)
  (d, w32 (b + rotl32 f (md5S i)), b, c)

/-- Process one 64-byte block (given as 16 little-endian words). -/
def md5Block (st : Nat × Nat × Nat × Nat) (m : Array Nat) :
    Nat × Nat × Nat × Nat :=
  let (a0, b0, c0, d0) := st
  let (a, b, c, d) := (List.range 64).foldl (md5Round m) (a0, b0, c0, d0)
  (w32 (a0 + a), w32 (b0 + b), w32 (c0 + c), w32 (d0 + d))

/-- The `k` little-endian bytes of `x`. -/
def leBytes : Nat → Nat → List Nat
  | 0, _ => []
  | k + 1, x => x % 256 :: leBytes k (x / 256)

/-- Group a byte list into little-endian 32-bit words. -/
def bytesToWordsLE : List Nat → List Nat
  | b0 :: b1 :: b2 :: b3 :: rest =>
      (b0 + 256 * (b1 + 256 * (b2 + 256 * b3))) :: bytesToWordsLE rest
  | _ => []

/-- Split a byte list into 64-byte chunks. -/
def chunks64 : List Nat → List (List Nat)
  | [] => []
  | x :: xs => (x :: xs.take 63) :: chunks64 (xs.drop 63)
termination_by l => l.length
decreasing_by
  simp only [List.length_drop, List.length_cons]
  omega

/-- MD5 padding: `0x80`, zeros to 56 mod 64, then the bit length as eight
little-endian bytes. -/
def md5Pad (msg : List Nat) : List Nat :=
  msg ++ 128 :: List.replicate ((119 - msg.length % 64) % 64) 0
      ++ leBytes 8 ((8 * msg.length) % 18446744073709551616)

/-- The 16 digest bytes of the MD5 of a byte list. -/
def md5Bytes (msg : List Nat) : List Nat :=
  let st := (chunks64 (md5Pad msg)).foldl
      (fun st blk => md5Block st (Array.mk (bytesToWordsLE blk)))
      (0x67452301, 0xefcdab89, 0x98badcfe, 0x10325476)
  leBytes 4 st.1 ++ leBytes 4 st.2.1 ++ leBytes 4 st.2.2.1 ++ leBytes 4 st.2.2.2

/-- Lower-case hexadecimal digit. -/
def hexChar (n : Nat) : Char :=
  if n < 10 then Char.ofNat (48 + n) else Char.ofNat (87 + n)

/-- Two-digit lower-case hex rendering of a byte. -/
def byteToHex (b : Nat) : String :=
  String.mk [hexChar (b / 16), hexChar (b % 16)]

/-- Lower-case hex digest of the MD5 of a byte list
(`hashlib.md5(...).hexdigest()`). -/
def md5Hex (msg : List Nat) : String :=
  String.join ((md5Bytes msg).map byteToHex)

/-- UTF-8 bytes of a string (`str.encode('utf-8')`). -/
def strToBytes (s : String) : List Nat :=
  s.toUTF8.toList.map (fun b => b.toNat)

/-- Model of `SailthruClient.get_signature_hash`: MD5 hex digest of the UTF-8
signature string. -/
def get_signature_hash (params : PyParam) (secret : String) : String :=
  md5Hex (strToBytes (get_signature_string params secret))

/-! ## Error taxonomy and `raise_for_error` (`client.py`) -/

/-- The exception classes of `client.py`.  `SailthruClient429Error` carries
the `X-Rate-Limit-Remaining` header of the response attached to it
(already passed through Python `float`, hence a rational). -/
inductive PyExc where
  | sailthruClientError
  | badRequest
  | unauthorized
  | forbidden
  | notFound
  | conflict
  | methodNotFound
  | statsNotReady
  | internalServerError
  | server5xx
  | client429 (rateHeader : ℚ)
  | timeout
  deriving DecidableEq, Repr

/-- Python `isinstance(e, SailthruClientError)`: the generic client error and its
subclasses declared in `client.py`. -/
def isSailthruClientError : PyExc → Bool
  | .sailthruClientError | .badRequest | .unauthorized | .forbidden
  | .notFound | .conflict | .methodNotFound => true
  | _ => false

/-- Python `isinstance(e, SailthruServer5xxError)`: the base 5xx error and its
subclass `SailthruInternalServerError`. -/
def isServer5xx : PyExc → Bool
  | .internalServerError | .server5xx => true
  | _ => false

/-- A decoded JSON error body: the Sailthru application error code
(`error`) and message (`errormsg`), each possibly absent. -/
structure ApiBody where
  error : Option Int
  errormsg : Option String
  deriving DecidableEq, Repr

/-- An HTTP response as seen by `raise_for_error`: status code, decoded
JSON body (`none` when `response.json()` raises), and the value of the
`X-Rate-Limit-Remaining` header after Python `float` (meaningful only for
429 responses, whose exception carries the response). -/
structure HttpResponse where
  status : Nat
  body : Option ApiBody
  rateHeader : ℚ
  deriving DecidableEq, Repr

/-- Model of `response.json()` guarded by `try/except`: an undecodable body becomes
the empty dictionary. -/
def jsonResponseOf (r : HttpResponse) : ApiBody :=
  r.body.getD ⟨none, none⟩

/-- The per-status exception class of `ERROR_CODE_EXCEPTION_MAPPING`;
the 429 class is instantiated with the response attached, modelled by the
rate-limit header value `h`. -/
def mappedException (status : Nat) (h : ℚ) : Option PyExc :=
  if status = 400 then some .badRequest
  else if status = 401 then some .unauthorized
  else if status = 403 then some .forbidden
  else if status = 404 then some .notFound
  else if status = 405 then some .methodNotFound
  else if status = 409 then some .conflict
  else if status = 429 then some (.client429 h)
  else if status = 500 then some .internalServerError
  else none

/-- The static per-status default message of
`ERROR_CODE_EXCEPTION_MAPPING`. -/
def mappedMessage (status : Nat) : Option String :=
  if status = 400 then some "The request is missing or has a bad parameter."
  else if status = 401 then some "Invalid authorization credentials."
  else if status = 403 then
    some "User does not have permission to access the resource."
  else if status = 404 then
    some "The resource you have specified cannot be found."
  else if status = 405 then
    some "The provided HTTP method is not supported by the URL."
  else if status = 409 then
    some ("The request could not be completed due to a conflict with the "
      ++ "current state of the server.")
  else if status = 429 then
    some "API rate limit exceeded, please retry after some time."
  else if status = 500 then some "An error has occurred at Sailthru's end."
  else none

/-- Model of `get_exception_for_status_code` (the class), instantiated
with the rate-limit header `h` in the 429 case. -/
def get_exception_for_status_code (status : Nat) (errorCode : Option Int)
    (h : ℚ) : PyExc :=
  if 500 < status then .server5xx
  else if status = 400 ∧ errorCode = some 99 then .statsNotReady
  else (mappedException status h).getD .sailthruClientError

/-- Python `"{}".format` of the `error` field (`None` renders as the
string `None`). -/
def errorCodeStr : Option Int → String
  | none => "None"
  | some n => toString n

/-- Model of `raise_for_error`: `some (exception, message)` models a raise, `none`
models the deliberate 403/code-99 return-without-raising (after a warning
log). -/
def raise_for_error (r : HttpResponse) : Option (PyExc × String) :=
  if r.status = 403 ∧ (jsonResponseOf r).error = some 99 then none
  else some
    (get_exception_for_status_code r.status (jsonResponseOf r).error r.rateHeader,
      "HTTP-error-code: " ++ toString r.status ++ ", Error: "
        ++ errorCodeStr (jsonResponseOf r).error ++ ", Message: "
        ++ ((jsonResponseOf r).errormsg.getD
            ((mappedMessage r.status).getD "Unknown Error")))

/-- Substring containment, used to state what the diagnostic message
carries. -/
def containsStr (m x : String) : Prop := ∃ pre post, m = pre ++ x ++ post

/-- The tail of `SailthruClient._make_request` after one HTTP exchange:
raise for a non-200 status unless `raise_for_error` deliberately returns,
in which case (and for 200) the decoded body is returned. -/
def makeRequestOnce (r : HttpResponse) : Except (PyExc × String) (Option ApiBody) :=
  if r.status ≠ 200 then
    match raise_for_error r with
    | some e => .error e
    | none => .ok r.body
  else .ok r.body

/-! ## Retry layers on `_make_request` (`client.py`)

`_make_request` is wrapped in two `backoff.on_exception` decorators:
an inner one catching `(SailthruClientError, SailthruServer5xxError,
SailthruClientStatsNotReadyError, Timeout)` with `backoff.expo`,
`factor=2`, `max_tries=MAX_RETRIES = 3`, and an outer one catching
`SailthruClient429Error` with `retry_after_wait_gen`, `max_tries=3`.
The model runs a request oracle `f : ℕ → CallResult` giving the outcome
of the `i`-th HTTP exchange, and returns the number of exchanges
performed, the sleeps requested by the wait generators (jitter applied by
the `backoff` library on top of `expo` is abstracted away; the generator
values themselves are modelled), and the final outcome. -/

/-- Outcome of one raw HTTP exchange inside `_make_request`. -/
inductive CallResult where
  | success (body : String)
  | exc (e : PyExc)
  deriving DecidableEq, Repr

/-- The exceptions caught by the inner `backoff.on_exception` decorator. -/
def innerCatches (e : PyExc) : Bool :=
  isSailthruClientError e || isServer5xx e || e = .statsNotReady || e = .timeout

/-- Model of `backoff.expo` with `factor=2`: the `n`-th generated delay. -/
def expoWait (n : Nat) : ℚ := 2 * 2 ^ n

/-- Model of `retry_after_wait_gen`: `math.floor(float(h))` where `h` is the
rate-limit header read from the response attached to the current 429
exception. -/
def rateLimitWait (h : ℚ) : ℚ := (⌊h⌋ : ℚ)

/-- The inner backoff layer: up to `tries` calls, retrying (after an
`expo` delay) the exceptions in `innerCatches`.  Returns the index after
the last call made, the sleeps, and the final result. -/
def runInner (f : Nat → CallResult) : Nat → Nat → Nat →
    Nat × List ℚ × CallResult
  | 0, i, _ => (i, [], f i)
  | 1, i, _ => (i + 1, [], f i)
  | t + 2, i, n =>
      match f i with
      | .exc e =>
          if innerCatches e then
            let (j, ws, r) := runInner f (t + 1) (i + 1) (n + 1)
            (j, expoWait n :: ws, r)
          else (i + 1, [], .exc e)
      | r => (i + 1, [], r)

/-- The outer 429 layer: up to `tries` runs of the inner layer, retrying
`SailthruClient429Error` after sleeping for the header value attached to
that moment's exception. -/
def runOuter (f : Nat → CallResult) : Nat → Nat → Nat × List ℚ × CallResult
  | 0, i => runInner f 3 i 0
  | 1, i => runInner f 3 i 0
  | t + 2, i =>
      let (j, ws, r) := runInner f 3 i 0
      match r with
      | .exc (.client429 h) =>
          let (k, ws2, r2) := runOuter f (t + 1) j
          (k, ws ++ rateLimitWait h :: ws2, r2)
      | r => (j, ws, r)

/-- Model of `_make_request` under both decorators: the number of HTTP exchanges
performed, the generated sleeps, and the final outcome. -/
def makeRequestRetried (f : Nat → CallResult) : Nat × List ℚ × CallResult :=
  runOuter f 3 0

/-! ## Request timeout resolution (`SailthruClient.__init__`) -/

/-- The configured `request_timeout` value: absent (`None`), a number, or
a string together with the result of Python `float` on it (`none` when
`float` would raise `ValueError`). -/
inductive TimeoutParam where
  | pyNone
  | pyNum (q : ℚ)
  | pyStr (s : String) (parsed : Option ℚ)
  deriving DecidableEq

/-- Python truthiness of the configured value. -/
def timeoutTruthy : TimeoutParam → Bool
  | .pyNone => false
  | .pyNum q => q ≠ 0
  | .pyStr s _ => s ≠ ""

/-- Python `float` applied to the configured value. -/
def timeoutFloat : TimeoutParam → Option ℚ
  | .pyNone => none
  | .pyNum q => some q
  | .pyStr _ p => p

/-- The timeout resolution in `SailthruClient.__init__`:
`if request_timeout and float(request_timeout): use float(request_timeout)
else: use REQUEST_TIMEOUT = 300`.  `none` models the constructor raising
(`float` of a non-numeric string). -/
def resolveRequestTimeout (t : TimeoutParam) : Option ℚ :=
  if timeoutTruthy t then
    match timeoutFloat t with
    | none => none
    | some v => if v ≠ 0 then some v else some 300
  else some 300

/-! ## Incremental sync (`IncrementalStream.sync`, `transform.py`) -/

/-- Model of `advance_date_by_microsecond`: parse, add
`timedelta(microseconds=1)`, format — on microsecond timestamps, `+ 1`. -/
def advance_date_by_microsecond (d : Nat) : Nat := d + 1

/-- A record as seen by `IncrementalStream.sync`: the parsed
replication-key timestamp (`rfc2822_to_datetime(record[replication_key])`,
in microseconds) and an opaque payload. -/
structure SyncRecord where
  ts : Nat
  payload : String
  deriving DecidableEq, Repr

/-- One iteration of the record loop in `IncrementalStream.sync`: the
record is transformed and written iff its timestamp is `≥` the (fixed)
advanced bookmark, and only then does `max_datetime` advance. -/
def incrementalSyncStep (bookmarkDT : Nat) (acc : List SyncRecord × Nat)
    (r : SyncRecord) : List SyncRecord × Nat :=
  if bookmarkDT ≤ r.ts then (acc.1 ++ [r], max r.ts acc.2) else acc

/-- Model of `IncrementalStream.sync` over a record sequence: returns the emitted
records (in order) and the bookmark written at the end
(`strftime(max_datetime)`). -/
def incrementalSync (startTime : Nat) (records : List SyncRecord) :
    List SyncRecord × Nat :=
  let bookmarkDT := advance_date_by_microsecond startTime
  records.foldl (incrementalSyncStep bookmarkDT) ([], bookmarkDT)

/-- Modelled from the spec (for comparison only, not from the source):
the §4.4 COMPARE/EMIT/ADVANCE loop as the claim states it — a running
high-watermark that advances on every record seen, with emission strict
(`>`) for non-batched streams and non-strict (`≥`) for batched ones. -/
def claimRunningSync (batched : Bool) (startTime : Nat)
    (records : List SyncRecord) : List SyncRecord × Nat :=
  records.foldl
    (fun acc r =>
      let emit := if batched then acc.2 ≤ r.ts else acc.2 < r.ts
      (if emit then acc.1 ++ [r] else acc.1, max r.ts acc.2))
    ([], advance_date_by_microsecond startTime)

/-! ## Export job polling (`BaseStream.get_job_url`) -/

/-- One `/job` poll response: the `status` field and the `export_url`
field. -/
structure JobPoll where
  status : String
  exportUrl : Option String
  deriving DecidableEq, Repr

/-- Outcome of `BaseStream.get_job_url`: the returned export URL, the
`SailthruJobTimeout` exception, or `pending` when the modelled poll
sequence is exhausted with the loop still running. -/
inductive JobResult where
  | completed (url : Option String)
  | jobTimeout
  | pending
  deriving DecidableEq, Repr

/-- Model of `BaseStream.get_job_url` over a sequence of polls paired with the
elapsed seconds (`(now - job_start_time).seconds`) observed right after
each poll.  Faithful to the loop body order: the timeout check runs
after every poll, before the `while` condition re-examines the status. -/
def get_job_url (timeoutSec : Nat) : List (JobPoll × Nat) → JobResult
  | [] => .pending
  | (p, elapsed) :: rest =>
      if timeoutSec < elapsed then .jobTimeout
      else if p.status = "completed" then .completed p.exportUrl
      else get_job_url timeoutSec rest

/-! ## Purchase-log date window (`PurchaseLog.get_records`,
`get_start_and_end_date_params`) -/

/-- Microseconds per calendar day; `dt / usPerDay` models
`datetime.date()` as a day ordinal. -/
def usPerDay : Nat := 86400000000

/-- Model of `get_start_and_end_date_params`: the bookmark datetime and the
bookmark datetime plus 30 days. -/
def get_start_and_end_date_params (start : Nat) : Nat × Nat :=
  (start, start + 30 * usPerDay)

/-- The `while start_datetime.date() < min(end_datetime.date(),
now.date())` loop of `PurchaseLog.get_records`: the `(start_date,
end_date)` parameter pairs submitted, one per iteration, both set to the
current day, advancing `start_datetime` by one day each time. -/
def purchaseLogLoop (start : Nat) (stopDay : Nat) : List (Nat × Nat) :=
  if _h : start / usPerDay < stopDay then
    (start / usPerDay, start / usPerDay) ::
      purchaseLogLoop (start + usPerDay) stopDay
  else []
termination_by stopDay - start / usPerDay
decreasing_by
  have h64 : 0 < usPerDay := by norm_num [usPerDay]
  have : (start + usPerDay) / usPerDay = start / usPerDay + 1 :=
    Nat.add_div_right start h64
  omega

/-- The export jobs submitted by one `PurchaseLog.get_records` call:
day-granular `(start_date, end_date)` pairs. -/
def purchaseLogJobs (bookmark now : Nat) : List (Nat × Nat) :=
  let se := get_start_and_end_date_params bookmark
  purchaseLogLoop se.1 (min (se.2 / usPerDay) (now / usPerDay))

/-- A CSV row of a purchase-log export: the parsed `Date` field and an
opaque payload. -/
structure CsvRow where
  date : Nat
  payload : String
  deriving DecidableEq, Repr

/-- Model of `sort_by_rfc2822`: ascending sort by the parsed date field. -/
def sort_by_rfc2822 (rows : List CsvRow) : List CsvRow :=
  rows.insertionSort (fun a b => a.date ≤ b.date)

/-- The record sequence yielded by `PurchaseLog.get_records` given the
per-day export contents: each submitted day's rows, sorted ascending by
`Date`, concatenated in day order. -/
def purchaseLogRecords (bookmark now : Nat) (csv : Nat → List CsvRow) :
    List CsvRow :=
  (purchaseLogJobs bookmark now).flatMap (fun d => sort_by_rfc2822 (csv d.1))

/-! ## Helper lemmas -/

lemma lexLe_cons_iff {a b : Char} {as bs : List Char} :
    lexLe (a :: as) (b :: bs) = true ↔ a < b ∨ (a = b ∧ lexLe as bs = true) := by
  simp only [lexLe]
  rcases lt_trichotomy a b with h | h | h
  · simp [h]
  · subst h
    simp [lt_irrefl]
  · simp [not_lt_of_lt h, h, ne_of_gt h]

lemma lexLe_total : ∀ as bs : List Char, lexLe as bs = true ∨ lexLe bs as = true := by
  intro as
  induction as with
  | nil => intro bs; left; rfl
  | cons a as ih =>
    intro bs
    cases bs with
    | nil => right; rfl
    | cons b bs =>
      simp only [lexLe_cons_iff]
      rcases lt_trichotomy a b with h | h | h
      · left; left; exact h
      · subst h
        rcases ih bs with h2 | h2
        · left; right; exact ⟨rfl, h2⟩
        · right; right; exact ⟨rfl, h2⟩
      · right; left; exact h

lemma lexLe_trans : ∀ as bs cs : List Char, lexLe as bs = true → lexLe bs cs = true →
    lexLe as cs = true := by
  intro as
  induction as with
  | nil => intro bs cs _ _; rfl
  | cons a as ih =>
    intro bs cs hab hbc
    cases bs with
    | nil => simp [lexLe] at hab
    | cons b bs =>
      cases cs with
      | nil => simp [lexLe] at hbc
      | cons c cs =>
        rw [lexLe_cons_iff] at hab hbc ⊢
        rcases hab with h1 | ⟨e1, h1⟩
        · rcases hbc with h2 | ⟨e2, h2⟩
          · exact Or.inl (lt_trans h1 h2)
          · exact Or.inl (e2 ▸ h1)
        · subst e1
          rcases hbc with h2 | ⟨e2, h2⟩
          · exact Or.inl h2
          · exact Or.inr ⟨e2, ih _ _ h1 h2⟩

lemma lexLe_antisymm : ∀ as bs : List Char, lexLe as bs = true → lexLe bs as = true →
    as = bs := by
  intro as
  induction as with
  | nil =>
    intro bs _ hba
    cases bs with
    | nil => rfl
    | cons b bs => simp [lexLe] at hba
  | cons a as ih =>
    intro bs hab hba
    cases bs with
    | nil => simp [lexLe] at hab
    | cons b bs =>
      rw [lexLe_cons_iff] at hab hba
      rcases hab with h1 | ⟨e1, h1⟩
      · rcases hba with h2 | ⟨e2, h2⟩
        · exact absurd h2 (not_lt_of_lt h1)
        · exact absurd e2.symm (ne_of_lt h1)
      · subst e1
        rcases hba with h2 | ⟨e2, h2⟩
        · exact absurd h2 (lt_irrefl a)
        · rw [ih _ h1 h2]

instance : IsTotal String (fun a b => strLeB a b = true) :=
  ⟨fun a b => lexLe_total a.data b.data⟩

instance : IsTrans String (fun a b => strLeB a b = true) :=
  ⟨fun a b c => lexLe_trans a.data b.data c.data⟩

instance : IsAntisymm String (fun a b => strLeB a b = true) :=
  ⟨fun a b h1 h2 => by
    cases a
    cases b
    exact congrArg String.mk (lexLe_antisymm _ _ h1 h2)⟩

lemma pySort_perm_eq {l₁ l₂ : List String} (h : l₁.Perm l₂) : pySort l₁ = pySort l₂ :=
  List.eq_of_perm_of_sorted
    (((List.perm_insertionSort _ l₁).trans h).trans (List.perm_insertionSort _ l₂).symm)
    (List.sorted_insertionSort _ l₁) (List.sorted_insertionSort _ l₂)

lemma extractParamsOfList_eq (xs : List PyParam) :
    extractParamsOfList xs = xs.flatMap extract_params := by
  induction xs with
  | nil => rfl
  | cons x xs ih => simp [extractParamsOfList, ih]

lemma extractParamsOfDict_eq (kvs : List (String × PyParam)) :
    extractParamsOfDict kvs = kvs.flatMap (fun kv => extract_params kv.2) := by
  induction kvs with
  | nil => rfl
  | cons kv kvs ih => simp [extractParamsOfDict, ih]

lemma get_signature_string_perm {p₁ p₂ : PyParam} (secret : String)
    (h : (extract_params p₁).Perm (extract_params p₂)) :
    get_signature_string p₁ secret = get_signature_string p₂ secret := by
  unfold get_signature_string
  rw [pySort_perm_eq (h.map pyStr)]

lemma get_signature_hash_perm {p₁ p₂ : PyParam} (secret : String)
    (h : (extract_params p₁).Perm (extract_params p₂)) :
    get_signature_hash p₁ secret = get_signature_hash p₂ secret := by
  unfold get_signature_hash
  rw [get_signature_string_perm secret h]

end TapSailthru

namespace TapSailthru

lemma incrementalSync_foldl (bd : Nat) :
    ∀ (rs : List SyncRecord) (acc : List SyncRecord) (m : Nat),
    rs.foldl (incrementalSyncStep bd) (acc, m) =
      (acc ++ rs.filter (fun r => bd ≤ r.ts),
        (rs.filter (fun r => bd ≤ r.ts)).foldl (fun m r => max r.ts m) m) := by
  intro rs
  induction rs with
  | nil => intro acc m; simp
  | cons r rs ih =>
    intro acc m
    by_cases h : bd ≤ r.ts
    · simp [incrementalSyncStep, h, ih]
    · simp [incrementalSyncStep, h, ih]

lemma foldl_max_filter (bd : Nat) :
    ∀ (rs : List SyncRecord) (m : Nat), bd ≤ m →
    (rs.filter (fun r => bd ≤ r.ts)).foldl (fun m r => max r.ts m) m
      = rs.foldl (fun m r => max r.ts m) m := by
  intro rs
  induction rs with
  | nil => intro m _; rfl
  | cons r rs ih =>
    intro m hm
    by_cases h : bd ≤ r.ts
    · simp only [List.filter_cons, h, decide_eq_true_eq, if_pos, List.foldl_cons]
      exact ih _ (le_trans hm (le_max_right _ _))
    · have e : max r.ts m = m := max_eq_right (le_trans (le_of_not_le h) hm)
      rw [List.filter_cons, if_neg (by simpa using h), List.foldl_cons, e]
      exact ih _ hm

lemma incrementalSync_eq (start : Nat) (rs : List SyncRecord) :
    incrementalSync start rs =
      (rs.filter (fun r => advance_date_by_microsecond start ≤ r.ts),
        rs.foldl (fun m r => max r.ts m) (advance_date_by_microsecond start)) := by
  unfold incrementalSync
  rw [incrementalSync_foldl, foldl_max_filter _ _ _ (le_refl _)]
  simp

lemma le_foldl_max : ∀ (rs : List SyncRecord) (m : Nat),
    m ≤ rs.foldl (fun m r => max r.ts m) m := by
  intro rs
  induction rs with
  | nil => intro m; exact le_refl m
  | cons r rs ih =>
    intro m
    exact le_trans (le_max_right r.ts m) (ih (max r.ts m))

lemma mem_le_foldl_max : ∀ (rs : List SyncRecord) (m : Nat) (r : SyncRecord),
    r ∈ rs → r.ts ≤ rs.foldl (fun m r => max r.ts m) m := by
  intro rs
  induction rs with
  | nil => intro m r h; cases h
  | cons a rs ih =>
    intro m r h
    rcases List.mem_cons.mp h with h | h
    · subst h
      exact le_trans (le_max_left r.ts m) (le_foldl_max rs (max r.ts m))
    · exact ih _ _ h

lemma foldl_max_perm {rs₁ rs₂ : List SyncRecord} (h : rs₁.Perm rs₂) (m : Nat) :
    rs₁.foldl (fun m r => max r.ts m) m = rs₂.foldl (fun m r => max r.ts m) m :=
  h.foldl_eq' (fun x _ y _ z => by simp [max_left_comm]) m

/-- C1: `get_signature_hash` equals the MD5 hex digest of the UTF-8 bytes
of the secret followed by the lexicographically sorted string forms of all
scalar leaf values, it is invariant under permutations of the flattened
leaves (hence under reordering dictionary keys or list elements), and for
secret `"secret"` and params `["one", "two", "three"]` the pre-hash
signature string is exactly `"secretonethreetwo"`. -/
theorem C1_signature_flatten_sort_hash :
    (∀ (params : PyParam) (secret : String),
      get_signature_hash params secret =
        md5Hex (strToBytes
          (secret ++ String.join (pySort ((extract_params params).map pyStr)))))
    ∧ (∀ (p₁ p₂ : PyParam) (secret : String),
        (extract_params p₁).Perm (extract_params p₂) →
        get_signature_hash p₁ secret = get_signature_hash p₂ secret)
    ∧ (∀ (kvs₁ kvs₂ : List (String × PyParam)) (secret : String),
        kvs₁.Perm kvs₂ →
        get_signature_hash (.dict kvs₁) secret = get_signature_hash (.dict kvs₂) secret)
    ∧ (∀ (xs₁ xs₂ : List PyParam) (secret : String),
        xs₁.Perm xs₂ →
        get_signature_hash (.list xs₁) secret = get_signature_hash (.list xs₂) secret)
    ∧ get_signature_string
        (.list [.str "one", .str "two", .str "three"]) "secret" = "secretonethreetwo" := by
  refine ⟨fun params secret => rfl, fun p₁ p₂ secret h => get_signature_hash_perm secret h,
    ?_, ?_, by decide⟩
  · intro kvs₁ kvs₂ secret h
    apply get_signature_hash_perm
    show (extract_params (.dict kvs₁)).Perm (extract_params (.dict kvs₂))
    rw [extract_params, extract_params, extractParamsOfDict_eq, extractParamsOfDict_eq]
    exact List.Perm.flatMap_right _ h
  · intro xs₁ xs₂ secret h
    apply get_signature_hash_perm
    show (extract_params (.list xs₁)).Perm (extract_params (.list xs₂))
    rw [extract_params, extract_params, extractParamsOfList_eq, extractParamsOfList_eq]
    exact List.Perm.flatMap_right _ h

/-- Witness for C1: a concrete dictionary with its keys reordered yields
the same signature hash. -/
theorem C1_signature_flatten_sort_hash_witness :
    ([("a", PyParam.str "1"), ("b", PyParam.str "2")] : List (String × PyParam)).Perm
        [("b", PyParam.str "2"), ("a", PyParam.str "1")]
    ∧ get_signature_hash (.dict [("a", .str "1"), ("b", .str "2")]) "secret"
        = get_signature_hash (.dict [("b", .str "2"), ("a", .str "1")]) "secret" :=
  ⟨List.Perm.swap _ _ _,
    C1_signature_flatten_sort_hash.2.2.1 _ _ "secret" (List.Perm.swap _ _ _)⟩

/-- C2 counterexample: with effective bookmark 6 (start 5 advanced by one
microsecond) and records timestamped 10 then 7, the code emits both
records — including the second, whose timestamp 7 is below the running
high-watermark 10 that the claim prescribes — so emission does not match
the claimed running-watermark rule for either value of `batched`. -/
theorem C2_emission_vs_running_watermark_counterexample :
    (⟨7, "b"⟩ : SyncRecord) ∈ (incrementalSync 5 [⟨10, "a"⟩, ⟨7, "b"⟩]).1
    ∧ (incrementalSync 5 [⟨10, "a"⟩, ⟨7, "b"⟩]).1
        ≠ (claimRunningSync false 5 [⟨10, "a"⟩, ⟨7, "b"⟩]).1
    ∧ (incrementalSync 5 [⟨10, "a"⟩, ⟨7, "b"⟩]).1
        ≠ (claimRunningSync true 5 [⟨10, "a"⟩, ⟨7, "b"⟩]).1 := by
  decide

/-- C2 amended: a record is transformed and emitted iff its
replication-key timestamp is greater-or-equal to the fixed effective
initial bookmark (the prior bookmark advanced by one microsecond), for
every incremental stream alike — the comparison watermark never advances
during the run — and the final tracker equals the running maximum of the
effective initial bookmark and all record timestamps. -/
theorem C2_emission_fixed_bookmark :
    ∀ (start : Nat) (rs : List SyncRecord),
    (incrementalSync start rs).1
        = rs.filter (fun r => advance_date_by_microsecond start ≤ r.ts)
    ∧ (incrementalSync start rs).2
        = rs.foldl (fun m r => max r.ts m) (advance_date_by_microsecond start) := by
  intro start rs
  rw [incrementalSync_eq]
  exact ⟨rfl, rfl⟩

/-- C3 counterexample: starting from bookmark 5 with a single record
timestamped 3 (so 3 is the maximum replication-key timestamp seen), the
persisted bookmark is 6, not the maximum timestamp among the records
seen. -/
theorem C3_bookmark_counterexample :
    (∀ r ∈ ([⟨3, "x"⟩] : List SyncRecord), r.ts ≤ 3)
    ∧ (incrementalSync 5 [⟨3, "x"⟩]).2 = 6
    ∧ (incrementalSync 5 [⟨3, "x"⟩]).2 ≠ 3 := by
  decide

/-- C3 amended: the bookmark persisted at the end of an incremental sync
equals the maximum of the effective initial bookmark (the prior bookmark
advanced by one microsecond) and all replication-key timestamps seen; it
is never smaller than any record timestamp seen, is strictly later than
the starting bookmark, and is independent of the order in which the
records are presented. -/
theorem C3_bookmark_monotonicity :
    ∀ (start : Nat) (rs : List SyncRecord),
    (incrementalSync start rs).2
        = rs.foldl (fun m r => max r.ts m) (advance_date_by_microsecond start)
    ∧ (∀ r ∈ rs, r.ts ≤ (incrementalSync start rs).2)
    ∧ start < (incrementalSync start rs).2
    ∧ (∀ rs₂, rs.Perm rs₂ →
        (incrementalSync start rs).2 = (incrementalSync start rs₂).2) := by
  intro start rs
  rw [incrementalSync_eq]
  refine ⟨rfl, ?_, ?_, ?_⟩
  · intro r h
    exact mem_le_foldl_max rs _ r h
  · exact lt_of_lt_of_le (Nat.lt_succ_self start) (le_foldl_max rs _)
  · intro rs₂ h
    rw [incrementalSync_eq]
    exact foldl_max_perm h _

/-- Witness for C3 amended: concrete records 7 and 9 are both bounded by
the persisted bookmark, and swapping the input order leaves the persisted
bookmark unchanged. -/
theorem C3_bookmark_monotonicity_witness :
    ((⟨7, "a"⟩ : SyncRecord) ∈ ([⟨7, "a"⟩, ⟨9, "b"⟩] : List SyncRecord))
    ∧ (⟨7, "a"⟩ : SyncRecord).ts ≤ (incrementalSync 5 [⟨7, "a"⟩, ⟨9, "b"⟩]).2
    ∧ ([⟨7, "a"⟩, ⟨9, "b"⟩] : List SyncRecord).Perm [⟨9, "b"⟩, ⟨7, "a"⟩]
    ∧ (incrementalSync 5 [⟨7, "a"⟩, ⟨9, "b"⟩]).2
        = (incrementalSync 5 [⟨9, "b"⟩, ⟨7, "a"⟩]).2 :=
  ⟨by decide,
    (C3_bookmark_monotonicity 5 [⟨7, "a"⟩, ⟨9, "b"⟩]).2.1 ⟨7, "a"⟩ (by decide),
    List.Perm.swap _ _ _,
    (C3_bookmark_monotonicity 5 [⟨7, "a"⟩, ⟨9, "b"⟩]).2.2.2 _ (List.Perm.swap _ _ _)⟩

/-- C7: the emission comparison uses the prior bookmark advanced by
exactly one microsecond, so records whose replication-key timestamp
exactly equals the prior bookmark are not emitted on a re-run. -/
theorem C7_microsecond_advance_no_reemission :
    ∀ (b : Nat) (rs : List SyncRecord),
    advance_date_by_microsecond b = b + 1
    ∧ (incrementalSync b rs).1
        = rs.filter (fun r => advance_date_by_microsecond b ≤ r.ts)
    ∧ ((∀ r ∈ rs, r.ts = b) → (incrementalSync b rs).1 = []) := by
  intro b rs
  rw [incrementalSync_eq]
  refine ⟨rfl, rfl, ?_⟩
  intro h
  rw [List.filter_eq_nil_iff]
  intro r hr
  rw [h r hr]
  simp [advance_date_by_microsecond]

/-- Witness for C7: with bookmark 5 and two records timestamped exactly
5, nothing is emitted. -/
theorem C7_microsecond_advance_no_reemission_witness :
    (∀ r ∈ ([⟨5, "a"⟩, ⟨5, "b"⟩] : List SyncRecord), r.ts = 5)
    ∧ (incrementalSync 5 [⟨5, "a"⟩, ⟨5, "b"⟩]).1 = [] :=
  ⟨by decide, (C7_microsecond_advance_no_reemission 5 _).2.2 (by decide)⟩

end TapSailthru

namespace TapSailthru

/-- C4: for every non-200 response, `raise_for_error` raises the typed
exception determined by the status code (with 400/99 mapped to the
stats-not-ready error, statuses above 500 to the generic 5xx error, and
unmapped statuses to the generic client error), with a message containing
the HTTP status, the application error code when present, and the
API-provided message or else the static per-status default — except that
403 with application error code 99 raises nothing and `_make_request`
returns the decoded body. -/
theorem C4_error_classification :
    ∀ r : HttpResponse, r.status ≠ 200 →
    ((r.status = 403 ∧ (jsonResponseOf r).error = some 99 →
        raise_for_error r = none ∧ makeRequestOnce r = .ok r.body)
    ∧ (¬(r.status = 403 ∧ (jsonResponseOf r).error = some 99) →
        ∃ k m, raise_for_error r = some (k, m)
          ∧ makeRequestOnce r = .error (k, m)
          ∧ (r.status = 400 → (jsonResponseOf r).error ≠ some 99 → k = .badRequest)
          ∧ (r.status = 400 → (jsonResponseOf r).error = some 99 → k = .statsNotReady)
          ∧ (r.status = 401 → k = .unauthorized)
          ∧ (r.status = 403 → k = .forbidden)
          ∧ (r.status = 404 → k = .notFound)
          ∧ (r.status = 405 → k = .methodNotFound)
          ∧ (r.status = 409 → k = .conflict)
          ∧ (r.status = 429 → k = .client429 r.rateHeader)
          ∧ (r.status = 500 → k = .internalServerError)
          ∧ (500 < r.status → k = .server5xx)
          ∧ (r.status ∉ ([400, 401, 403, 404, 405, 409, 429, 500] : List Nat) →
              r.status < 500 → k = .sailthruClientError)
          ∧ containsStr m (toString r.status)
          ∧ (∀ c : Int, (jsonResponseOf r).error = some c → containsStr m (toString c))
          ∧ containsStr m ((jsonResponseOf r).errormsg.getD
              ((mappedMessage r.status).getD "Unknown Error")))) := by
  intro r h200
  constructor
  · intro h403
    have hr : raise_for_error r = none := by
      rw [raise_for_error, if_pos h403]
    refine ⟨hr, ?_⟩
    rw [makeRequestOnce, if_pos h200, hr]
  · intro hn403
    refine ⟨get_exception_for_status_code r.status (jsonResponseOf r).error r.rateHeader,
      "HTTP-error-code: " ++ toString r.status ++ ", Error: "
        ++ errorCodeStr (jsonResponseOf r).error ++ ", Message: "
        ++ ((jsonResponseOf r).errormsg.getD ((mappedMessage r.status).getD "Unknown Error")),
      ?_, ?_, ?_, ?_, ?_, ?_, ?_, ?_, ?_, ?_, ?_, ?_, ?_, ?_, ?_, ?_⟩
    · rw [raise_for_error, if_neg hn403]
    · rw [makeRequestOnce, if_pos h200, raise_for_error, if_neg hn403]
    · intro e hc
      simp [get_exception_for_status_code, mappedException, e, hc]
    · intro e hc
      simp [get_exception_for_status_code, e, hc]
    · intro e
      simp [get_exception_for_status_code, mappedException, e]
    · intro e
      have hc : (jsonResponseOf r).error ≠ some 99 := fun hc => hn403 ⟨e, hc⟩
      simp [get_exception_for_status_code, mappedException, e, hc]
    · intro e
      simp [get_exception_for_status_code, mappedException, e]
    · intro e
      simp [get_exception_for_status_code, mappedException, e]
    · intro e
      simp [get_exception_for_status_code, mappedException, e]
    · intro e
      simp [get_exception_for_status_code, mappedException, e]
    · intro e
      simp [get_exception_for_status_code, mappedException, e]
    · intro e
      simp [get_exception_for_status_code, Nat.not_lt.mpr (le_of_lt e), e]
    · intro hnm hlt
      have h400 : r.status ≠ 400 := fun e => hnm (by simp [e])
      have h401 : r.status ≠ 401 := fun e => hnm (by simp [e])
      have h403b : r.status ≠ 403 := fun e => hnm (by simp [e])
      have h404 : r.status ≠ 404 := fun e => hnm (by simp [e])
      have h405 : r.status ≠ 405 := fun e => hnm (by simp [e])
      have h409 : r.status ≠ 409 := fun e => hnm (by simp [e])
      have h429 : r.status ≠ 429 := fun e => hnm (by simp [e])
      have h500 : r.status ≠ 500 := fun e => hnm (by simp [e])
      simp [get_exception_for_status_code, mappedException, Nat.not_lt.mpr (le_of_lt hlt),
        h400, h401, h403b, h404, h405, h409, h429, h500]
    · exact ⟨"HTTP-error-code: ",
        ", Error: " ++ errorCodeStr (jsonResponseOf r).error ++ ", Message: "
          ++ ((jsonResponseOf r).errormsg.getD ((mappedMessage r.status).getD "Unknown Error")),
        by simp [String.append_assoc]⟩
    · intro c hc
      exact ⟨"HTTP-error-code: " ++ toString r.status ++ ", Error: ",
        ", Message: "
          ++ ((jsonResponseOf r).errormsg.getD ((mappedMessage r.status).getD "Unknown Error")),
        by simp [String.append_assoc, hc, errorCodeStr]⟩
    · exact ⟨"HTTP-error-code: " ++ toString r.status ++ ", Error: "
          ++ errorCodeStr (jsonResponseOf r).error ++ ", Message: ", "",
        by simp [String.append_assoc]⟩

/-- Witness for C4: a concrete 403 response with application error code
99 raises nothing and the request entry point returns the decoded body,
while a concrete 404 raises the not-found error. -/
theorem C4_error_classification_witness :
    (raise_for_error ⟨403, some ⟨some 99, some "no export"⟩, 0⟩ = none
      ∧ makeRequestOnce ⟨403, some ⟨some 99, some "no export"⟩, 0⟩
          = .ok (some ⟨some 99, some "no export"⟩))
    ∧ ∃ k m, raise_for_error ⟨404, some ⟨some 9, some "gone"⟩, 0⟩ = some (k, m)
        ∧ k = PyExc.notFound :=
  ⟨(C4_error_classification ⟨403, some ⟨some 99, some "no export"⟩, 0⟩ (by decide)).1
      (by exact ⟨rfl, rfl⟩),
    by
      obtain ⟨k, m, h1, _, _, _, _, _, h404, _⟩ :=
        (C4_error_classification ⟨404, some ⟨some 9, some "gone"⟩, 0⟩ (by decide)).2
          (by simp)
      exact ⟨k, m, h1, h404 rfl⟩⟩

end TapSailthru

namespace TapSailthru

lemma runInner_all_caught (f : Nat → CallResult) (i : Nat)
    (e0 e1 : PyExc)
    (h0 : f i = .exc e0) (hc0 : innerCatches e0 = true)
    (h1 : f (i + 1) = .exc e1) (hc1 : innerCatches e1 = true) :
    runInner f 3 i 0 = (i + 3, [expoWait 0, expoWait 1], f (i + 2)) := by
  simp [runInner, h0, hc0, h1, hc1]

lemma runInner_first_uncaught (f : Nat → CallResult) (i : Nat) (e : PyExc)
    (h : f i = .exc e) (hc : innerCatches e = false) :
    runInner f 3 i 0 = (i + 1, [], .exc e) := by
  simp [runInner, h, hc]

lemma makeRequestRetried_inner_caught (f : Nat → CallResult)
    (hall : ∀ i, ∃ e, f i = .exc e ∧ innerCatches e = true)
    (e2 : PyExc) (hf2 : f 2 = .exc e2) (hnot429 : ∀ q, e2 ≠ .client429 q) :
    makeRequestRetried f = (3, [expoWait 0, expoWait 1], .exc e2) := by
  obtain ⟨e0, h0, hc0⟩ := hall 0
  obtain ⟨e1, h1, hc1⟩ := hall 1
  have hrun : runInner f 3 0 0 = (3, [expoWait 0, expoWait 1], f 2) :=
    runInner_all_caught f 0 e0 e1 h0 hc0 h1 hc1
  rw [makeRequestRetried]
  show (runOuter f 3 0) = _
  rw [runOuter, hrun, hf2]
  cases e2 with
  | client429 q => exact absurd rfl (hnot429 q)
  | _ => rfl

end TapSailthru

namespace TapSailthru

lemma runOuter_persistent_429 (f : Nat → CallResult) (h : Nat → ℚ)
    (hf : ∀ i, f i = .exc (.client429 (h i))) :
    makeRequestRetried f
      = (3, [rateLimitWait (h 0), rateLimitWait (h 1)], .exc (.client429 (h 2))) := by
  have r0 := runInner_first_uncaught f 0 _ (hf 0) (by rfl)
  have r1 := runInner_first_uncaught f 1 _ (hf 1) (by rfl)
  have r2 := runInner_first_uncaught f 2 _ (hf 2) (by rfl)
  simp [makeRequestRetried, runOuter, r0, r1, r2]

end TapSailthru

namespace TapSailthru

/-- C5 counterexample: under a persistent 400 bad-request response the
request entry point performs 3 HTTP attempts (the typed 4xx exceptions
subclass `SailthruClientError`, which the connection-level backoff
decorator catches and retries), not a single retry-free attempt; the
typed exception still surfaces at the end. -/
theorem C5_no_retry_counterexample :
    (makeRequestRetried (fun _ => .exc .badRequest)).1 = 3
    ∧ (makeRequestRetried (fun _ => .exc .badRequest)).1 ≠ 1
    ∧ (makeRequestRetried (fun _ => .exc .badRequest)).2.2 = .exc .badRequest := by
  refine ⟨rfl, by decide, rfl⟩

/-- C5 amended: a 4xx client-error response other than 429 causes the
corresponding typed exception to propagate out of the request entry
point and abort the run, but only after the connection-level backoff
layer has retried it — exactly 3 total attempts with the doubling
`backoff.expo` delay generator. -/
theorem C5_client_error_retried_then_raised :
    ∀ (e : PyExc) (f : Nat → CallResult),
    isSailthruClientError e = true → (∀ i, f i = .exc e) →
    makeRequestRetried f = (3, [expoWait 0, expoWait 1], .exc e) := by
  intro e f he hf
  apply makeRequestRetried_inner_caught f
      (fun i => ⟨e, hf i, by simp [innerCatches, he]⟩) e (hf 2)
  intro q hq
  subst hq
  simp [isSailthruClientError] at he

/-- Witness for C5 amended: the persistent bad-request oracle makes
exactly 3 attempts, sleeps 2 then 4 seconds, and surfaces the
bad-request exception. -/
theorem C5_client_error_retried_then_raised_witness :
    isSailthruClientError .badRequest = true
    ∧ makeRequestRetried (fun _ => .exc .badRequest)
        = (3, [expoWait 0, expoWait 1], .exc .badRequest) :=
  ⟨rfl, C5_client_error_retried_then_raised .badRequest _ rfl (fun _ => rfl)⟩

/-- C6: under a persistently failing server — every attempt a 5xx
response, a request timeout, or the 400/99 stats-not-ready condition —
`_make_request` performs exactly 3 total attempts (with the doubling
`backoff.expo` generator yielding delays 2 and 4) before the final
exception surfaces; under a persistent 429 it likewise performs exactly
3 total attempts, and the sleep before each retry is
`floor(float(header))` for the header attached to that moment's 429
exception, re-read on every retry. -/
theorem C6_retry_budgets :
    (∀ f : Nat → CallResult,
      (∀ i, ∃ e, f i = .exc e
          ∧ (isServer5xx e = true ∨ e = .timeout ∨ e = .statsNotReady)) →
      (makeRequestRetried f).1 = 3
      ∧ (makeRequestRetried f).2.1 = [expoWait 0, expoWait 1]
      ∧ (makeRequestRetried f).2.2 = f 2
      ∧ expoWait 0 = 2 ∧ expoWait 1 = 4)
    ∧ (∀ (f : Nat → CallResult) (h : Nat → ℚ),
      (∀ i, f i = .exc (.client429 (h i))) →
      makeRequestRetried f
        = (3, [rateLimitWait (h 0), rateLimitWait (h 1)], .exc (.client429 (h 2)))
      ∧ ∀ i, rateLimitWait (h i) = (⌊h i⌋ : ℚ)) := by
  constructor
  · intro f hall
    obtain ⟨e2, hf2, hd2⟩ := hall 2
    have hcaught : ∀ i, ∃ e, f i = .exc e ∧ innerCatches e = true := by
      intro i
      obtain ⟨e, hf, hd⟩ := hall i
      refine ⟨e, hf, ?_⟩
      rcases hd with h | h | h
      · simp [innerCatches, h]
      · simp [innerCatches, h]
      · simp [innerCatches, h]
    have hnot429 : ∀ q, e2 ≠ .client429 q := by
      intro q hq
      subst hq
      rcases hd2 with h | h | h <;> simp [isServer5xx] at h
    have := makeRequestRetried_inner_caught f hcaught e2 hf2 hnot429
    rw [this, hf2]
    refine ⟨rfl, rfl, rfl, by norm_num [expoWait], by norm_num [expoWait]⟩
  · intro f h hf
    exact ⟨runOuter_persistent_429 f h hf, fun i => rfl⟩

/-- Witness for C6: concrete persistent internal-server-error and
persistent 429 oracles realize the attempt counts and sleeps. -/
theorem C6_retry_budgets_witness :
    ((makeRequestRetried (fun _ => .exc .internalServerError)).1 = 3
      ∧ (makeRequestRetried (fun _ => .exc .internalServerError)).2.2
          = .exc .internalServerError)
    ∧ makeRequestRetried (fun _ => .exc (.client429 (7 / 2)))
        = (3, [rateLimitWait (7 / 2), rateLimitWait (7 / 2)], .exc (.client429 (7 / 2))) :=
  ⟨⟨(C6_retry_budgets.1 (fun _ => .exc .internalServerError)
        (fun _ => ⟨.internalServerError, rfl, Or.inl rfl⟩)).1,
    (C6_retry_budgets.1 (fun _ => .exc .internalServerError)
        (fun _ => ⟨.internalServerError, rfl, Or.inl rfl⟩)).2.2.1⟩,
    (C6_retry_budgets.2 (fun _ => .exc (.client429 (7 / 2))) (fun _ => 7 / 2)
        (fun _ => rfl)).1⟩

end TapSailthru

namespace TapSailthru

/-- C8 counterexample: a poll whose status is already `completed` but
whose elapsed time exceeds the timeout raises `SailthruJobTimeout`
instead of returning the export URL of that first completed response —
the loop body checks the timeout before the `while` condition re-examines
the status. -/
theorem C8_completed_after_timeout_counterexample :
    get_job_url 600 [(⟨"completed", some "u"⟩, 601)] = .jobTimeout
    ∧ get_job_url 600 [(⟨"completed", some "u"⟩, 601)] ≠ .completed (some "u") := by
  decide

/-- C8 amended: `get_job_url` returns the `export_url` of the first
`completed` poll provided the timeout has not been exceeded at any poll
up to and including it; if the elapsed time exceeds the timeout at some
poll (even one whose status is `completed`) before any timely completed
poll, the distinct `SailthruJobTimeout` exception is raised. -/
theorem C8_job_polling :
    ∀ (timeout : Nat) (pre : List (JobPoll × Nat)) (p : JobPoll) (e : Nat)
      (rest : List (JobPoll × Nat)),
    (∀ q ∈ pre, q.1.status ≠ "completed" ∧ q.2 ≤ timeout) →
    ((p.status = "completed" → e ≤ timeout →
        get_job_url timeout (pre ++ (p, e) :: rest) = .completed p.exportUrl)
    ∧ (timeout < e →
        get_job_url timeout (pre ++ (p, e) :: rest) = .jobTimeout)) := by
  intro timeout pre
  induction pre with
  | nil =>
    intro p e rest _
    constructor
    · intro hs he
      simp [get_job_url, Nat.not_lt.mpr he, hs]
    · intro he
      simp [get_job_url, he]
  | cons q pre ih =>
    intro p e rest hpre
    obtain ⟨hqs, hqe⟩ := hpre q (List.mem_cons_self q pre)
    have tail := ih p e rest (fun q hq => hpre q (List.mem_cons_of_mem _ hq))
    constructor
    · intro hs he
      rw [List.cons_append, get_job_url, if_neg (Nat.not_lt.mpr hqe), if_neg hqs]
      exact tail.1 hs he
    · intro he
      rw [List.cons_append, get_job_url, if_neg (Nat.not_lt.mpr hqe), if_neg hqs]
      exact tail.2 he

/-- Witness for C8 amended: after one timely pending poll, a timely
completed poll returns its export URL, while an over-time poll raises the
distinct job-timeout exception. -/
theorem C8_job_polling_witness :
    get_job_url 600 [(⟨"pending", none⟩, 3), (⟨"completed", some "u"⟩, 5)]
        = .completed (some "u")
    ∧ get_job_url 600 [(⟨"pending", none⟩, 3), (⟨"pending", none⟩, 601)]
        = .jobTimeout :=
  ⟨(C8_job_polling 600 [(⟨"pending", none⟩, 3)] ⟨"completed", some "u"⟩ 5 []
      (by decide)).1 (by decide) (by decide),
    (C8_job_polling 600 [(⟨"pending", none⟩, 3)] ⟨"pending", none⟩ 601 []
      (by decide)).2 (by decide)⟩

/-- C9: the per-request timeout resolves to 300 seconds when the
configured `request_timeout` is absent, the empty string, zero, or a
string parsing to zero, and to `float(v)` verbatim for any positive
numeric or numeric-string value `v`. -/
theorem C9_request_timeout_resolution :
    resolveRequestTimeout .pyNone = some 300
    ∧ resolveRequestTimeout (.pyNum 0) = some 300
    ∧ (∀ v, resolveRequestTimeout (.pyStr "" v) = some 300)
    ∧ (∀ s, s ≠ "" → resolveRequestTimeout (.pyStr s (some 0)) = some 300)
    ∧ (∀ q : ℚ, 0 < q → resolveRequestTimeout (.pyNum q) = some q)
    ∧ (∀ (s : String) (q : ℚ), s ≠ "" → 0 < q →
        resolveRequestTimeout (.pyStr s (some q)) = some q) := by
  refine ⟨rfl, rfl, fun v => rfl, ?_, ?_, ?_⟩
  · intro s hs
    simp [resolveRequestTimeout, timeoutTruthy, timeoutFloat, hs]
  · intro q hq
    simp [resolveRequestTimeout, timeoutTruthy, timeoutFloat, ne_of_gt hq]
  · intro s q hs hq
    simp [resolveRequestTimeout, timeoutTruthy, timeoutFloat, hs, ne_of_gt hq]

/-- Witness for C9: the string `"0"` resolves to 300 and the number 100
resolves to 100. -/
theorem C9_request_timeout_resolution_witness :
    resolveRequestTimeout (.pyStr "0" (some 0)) = some 300
    ∧ resolveRequestTimeout (.pyNum 100) = some 100 :=
  ⟨C9_request_timeout_resolution.2.2.2.1 "0" (by decide),
    C9_request_timeout_resolution.2.2.2.2.1 100 (by norm_num)⟩

end TapSailthru

namespace TapSailthru

instance : IsTotal CsvRow (fun a b => a.date ≤ b.date) :=
  ⟨fun a b => le_total a.date b.date⟩

instance : IsTrans CsvRow (fun a b => a.date ≤ b.date) :=
  ⟨fun _ _ _ hab hbc => le_trans hab hbc⟩

lemma purchaseLogLoop_eq :
    ∀ (n : Nat) (stop start : Nat), stop - start / usPerDay = n →
    purchaseLogLoop start stop
      = (List.range' (start / usPerDay) (stop - start / usPerDay)).map
          (fun d => (d, d)) := by
  intro n
  induction n with
  | zero =>
    intro stop start hn
    rw [purchaseLogLoop, dif_neg (by omega), hn]
    rfl
  | succ n ih =>
    intro stop start hn
    have hlt : start / usPerDay < stop := by omega
    have hdiv : (start + usPerDay) / usPerDay = start / usPerDay + 1 :=
      Nat.add_div_right start (by norm_num [usPerDay])
    have hn2 : stop - (start + usPerDay) / usPerDay = n := by
      rw [hdiv]; omega
    rw [purchaseLogLoop, dif_pos hlt, ih stop (start + usPerDay) hn2, hn, hdiv,
      List.range'_succ]
    have e : stop - (start / usPerDay + 1) = n := by omega
    rw [e]
    rfl

/-- C10: one export job per calendar day, `start_date` and `end_date`
both set to that day, for exactly the days from the bookmark's date up to
but excluding the earlier of bookmark date + 30 and today, in ascending
order — hence at most 30 jobs — and the record stream is each submitted
day's CSV rows sorted ascending by their `Date` field, day after day. -/
theorem C10_purchase_log_date_window :
    ∀ (bookmark now : Nat) (csv : Nat → List CsvRow),
    purchaseLogJobs bookmark now
      = (List.range' (bookmark / usPerDay)
          (min (bookmark / usPerDay + 30) (now / usPerDay) - bookmark / usPerDay)).map
          (fun d => (d, d))
    ∧ (purchaseLogJobs bookmark now).length ≤ 30
    ∧ (∀ p ∈ purchaseLogJobs bookmark now,
        p.2 = p.1 ∧ bookmark / usPerDay ≤ p.1 ∧ p.1 < bookmark / usPerDay + 30
          ∧ p.1 < now / usPerDay)
    ∧ (∀ d : Nat, bookmark / usPerDay ≤ d →
        d < min (bookmark / usPerDay + 30) (now / usPerDay) →
        (d, d) ∈ purchaseLogJobs bookmark now)
    ∧ List.Pairwise (· < ·) ((purchaseLogJobs bookmark now).map Prod.fst)
    ∧ purchaseLogRecords bookmark now csv
        = (List.range' (bookmark / usPerDay)
            (min (bookmark / usPerDay + 30) (now / usPerDay) - bookmark / usPerDay)).flatMap
            (fun d => sort_by_rfc2822 (csv d))
    ∧ (∀ rows : List CsvRow, (sort_by_rfc2822 rows).Perm rows
        ∧ List.Sorted (fun a b => a.date ≤ b.date) (sort_by_rfc2822 rows)) := by
  intro bookmark now csv
  have hend : (bookmark + 30 * usPerDay) / usPerDay = bookmark / usPerDay + 30 :=
    Nat.add_mul_div_right bookmark 30 (by norm_num [usPerDay])
  have hjobs : purchaseLogJobs bookmark now
      = (List.range' (bookmark / usPerDay)
          (min (bookmark / usPerDay + 30) (now / usPerDay) - bookmark / usPerDay)).map
          (fun d => (d, d)) := by
    rw [purchaseLogJobs]
    show purchaseLogLoop bookmark
        (min ((bookmark + 30 * usPerDay) / usPerDay) (now / usPerDay)) = _
    rw [purchaseLogLoop_eq _ _ _ rfl, hend]
  refine ⟨hjobs, ?_, ?_, ?_, ?_, ?_, ?_⟩
  · rw [hjobs]
    simp [List.length_range']
    omega
  · intro p hp
    rw [hjobs] at hp
    obtain ⟨d, hd, he⟩ := List.mem_map.mp hp
    obtain ⟨h1, h2⟩ := List.mem_range'_1.mp hd
    subst he
    refine ⟨rfl, h1, by omega, by omega⟩
  · intro d h1 h2
    rw [hjobs]
    exact List.mem_map.mpr ⟨d, List.mem_range'_1.mpr ⟨h1, by omega⟩, rfl⟩
  · rw [hjobs, List.map_map]
    have e : (Prod.fst ∘ fun d : Nat => (d, d)) = id := rfl
    rw [e, List.map_id]
    exact List.pairwise_lt_range' _ _
  · rw [purchaseLogRecords, hjobs, List.flatMap_map]
  · intro rows
    exact ⟨List.perm_insertionSort _ rows, List.sorted_insertionSort _ rows⟩

/-- Witness for C10: with a bookmark inside day 5 and the current time in
day 50, the (7, 7) day job is submitted and at most 30 jobs are made. -/
theorem C10_purchase_log_date_window_witness :
    ((432000000123 : Nat) / usPerDay ≤ 7
      ∧ 7 < min (432000000123 / usPerDay + 30) (4320000000000 / usPerDay))
    ∧ ((7, 7) : Nat × Nat) ∈ purchaseLogJobs 432000000123 4320000000000
    ∧ (purchaseLogJobs 432000000123 4320000000000).length ≤ 30 :=
  ⟨by decide,
    (C10_purchase_log_date_window 432000000123 4320000000000 (fun _ => [])).2.2.2.1 7
      (by decide) (by decide),
    (C10_purchase_log_date_window 432000000123 4320000000000 (fun _ => [])).2.1⟩

end TapSailthru
